import Mathlib

/-!
Verification of the DPLL SAT solver in `src/dpll.py` against its design
specification.  The program is shallowly embedded: Python strings become
lists of characters, Python sets of literal strings become duplicate-free
lists taken in iteration order, Python dicts become insertion-ordered
association lists, and the mutable `assignments` dict that `dpll` receives
is modelled by explicit state passing — `dpll` returns, next to the Python
return value, the final content of the dict object the caller handed in.
General recursion is modelled with explicit fuel; the outer `Option` of
`dpll` is `none` exactly when the fuel runs out, never a verdict.
-/

/-- A literal token is a Python string: a list of characters.  A variable
name optionally prefixed with the negation marker character `~`. -/
abbrev Literal := List Char

/-- A clause is a Python set of literal strings, modelled as a
duplicate-free list in iteration order. -/
abbrev Clause := List Literal

/-- A formula is a Python list of clauses. -/
abbrev Clauses := List Clause

/-- A Python dict from strings to booleans, modelled as an
insertion-ordered association list with unique keys. -/
abbrev Assignment := List (Literal × Bool)

/-- Python key-membership test `k in assignments` on a dict. -/
def dictMem (a : Assignment) (k : Literal) : Bool :=
  a.any fun p => p.1 == k

/-- Python `assignments[k] = v`: update the value in place when the key is
present, otherwise append the new pair at the end, which is the insertion
order a Python dict maintains. -/
def dictSet : Assignment → Literal → Bool → Assignment
  | [], k, v => [(k, v)]
  | (k0, v0) :: rest, k, v =>
    if k0 == k then (k, v) :: rest else (k0, v0) :: dictSet rest k v

/-- Dict lookup with a default, used only by the specification-side
clause-evaluation semantics below. -/
def dictGetD (a : Assignment) (k : Literal) (d : Bool) : Bool :=
  match a.find? (fun p => p.1 == k) with
  | some p => p.2
  | none => d

/-- Python `literal.startswith("~")`. -/
def startsTilde (l : Literal) : Bool :=
  l.head? == some '~'

/-- Python `f"~{literal}"`: prefix the negation marker. -/
def negLit (l : Literal) : Literal :=
  '~' :: l

/-- dpll.py lines 16-18, `find_unit_clauses`: the sole member of every
singleton clause, in clause order. -/
def find_unit_clauses (clauses : Clauses) : List Literal :=
  clauses.filterMap fun clause =>
    match clause with
    | [l] => some l
    | _ => none

/-- dpll.py lines 22-28: one step of the `defaultdict(int)` update
`literal_occurrence[key] += d`; a fresh key is appended at the end. -/
def bump : List (Literal × Int) → Literal → Int → List (Literal × Int)
  | [], k, d => [(k, d)]
  | (k0, n) :: rest, k, d =>
    if k0 == k then (k0, n + d) :: rest else (k0, n) :: bump rest k d

/-- dpll.py lines 22-28: the signed occurrence count per key.  A literal
containing `~` decrements the count of the string with its first character
removed, any other literal increments its own count. -/
def tally (clauses : Clauses) : List (Literal × Int) :=
  clauses.foldl
    (fun occ clause =>
      clause.foldl
        (fun occ l =>
          if l.contains '~' then bump occ (l.drop 1) (-1) else bump occ l 1)
        occ)
    []

/-- dpll.py lines 20-29, `find_pure_literals`: every key whose net signed
count is non-zero, in first-insertion order.  Note that the sign of the
count is not returned. -/
def find_pure_literals (clauses : Clauses) : List Literal :=
  (tally clauses).filterMap fun p => if p.2 = 0 then none else some p.1

/-- dpll.py lines 31-40, `assign`: drop every clause satisfied by fixing
`literal` to `value`, strip both polarities of the literal from the rest,
and keep a resulting clause only when it is non-empty (the source filters
out emptied clauses). -/
def assign : Clauses → Literal → Bool → Clauses
  | [], _, _ => []
  | clause :: rest, literal, value =>
    if (clause.contains literal && value)
        || (clause.contains (negLit literal) && !value) then
      assign rest literal value
    else
      let new_clause := clause.filter fun l =>
        !(l == literal) && !(l == negLit literal)
      if new_clause.isEmpty then assign rest literal value
      else new_clause :: assign rest literal value

/-- dpll.py lines 53-56: the contradiction scan over the unit-literal set.
The Python loop returns the failure signal as soon as some member together
with its negation is in the set; the outcome is independent of the set's
iteration order, so it is a plain existential over the list. -/
def unitContradiction (unit_literals : List Literal) : Bool :=
  unit_literals.any fun l =>
    (startsTilde l && decide (l.drop 1 ∈ unit_literals))
      || decide (negLit l ∈ unit_literals)

/-- dpll.py lines 58-65, the unit-propagation loop: pop the last listed
unit literal, record its forced value in the shared dict, simplify, and
recompute the unit list.  Fuel bounds the iteration count; `none` means the
fuel ran out. -/
def unitLoop : Nat → List Literal → Clauses → Assignment →
    Option (Clauses × Assignment)
  | 0, _, _, _ => none
  | _ + 1, [], clauses, assignments => some (clauses, assignments)
  | fuel + 1, l :: ls, clauses, assignments =>
    let lit0 := (l :: ls).getLastD []
    let lit := if startsTilde lit0 then lit0.drop 1 else lit0
    let value := !(startsTilde lit0)
    let assignments1 := dictSet assignments lit value
    let clauses1 := assign clauses lit value
    unitLoop fuel (find_unit_clauses clauses1) clauses1 assignments1

/-- dpll.py lines 67-74, the pure-literal pass: one sweep over the list
computed up front, recording each key (true unless the key itself starts
with `~`) in the shared dict and simplifying. -/
def pureLoop : List Literal → Clauses → Assignment → Clauses × Assignment
  | [], clauses, assignments => (clauses, assignments)
  | l :: ls, clauses, assignments =>
    let lit := if startsTilde l then l.drop 1 else l
    let value := !(startsTilde l)
    pureLoop ls (assign clauses lit value) (dictSet assignments lit value)

/-- dpll.py lines 49-74 after the contradiction scan: the unit-propagation
loop when enabled, then the pure-literal pass when enabled, threading the
clause list and the shared assignments dict. -/
def simpPhases (fuel : Nat) (clauses : Clauses) (assignments : Assignment)
    (use_unit use_pure : Bool) : Option (Clauses × Assignment) :=
  match
    (if use_unit then
      unitLoop fuel (find_unit_clauses clauses) clauses assignments
    else some (clauses, assignments)) with
  | none => none
  | some (c1, a1) =>
    some (if use_pure then pureLoop (find_pure_literals c1) c1 a1 else (c1, a1))

/-- dpll.py lines 81-83: the first literal, scanning clauses in order and
literals within a clause in iteration order, such that neither the literal
itself nor its negation is a key of the assignments dict. -/
def findBranchLit (clauses : Clauses) (assignments : Assignment) :
    Option Literal :=
  clauses.findSome? fun clause =>
    clause.find? fun l =>
      !(dictMem assignments l) && !(dictMem assignments (negLit l))

/-- The two Python outcomes of `dpll`: an assignments dict, or the
distinguished failure signal `False`. -/
inductive DpllResult where
  | sat (a : Assignment)
  | unsat
deriving DecidableEq

/-- dpll.py lines 42-93, `dpll`.  The pair returned inside `some` is the
Python return value together with the final content of the mutable dict the
caller passed in: the unit and pure phases write into that dict, while the
branching phase works on copies, so on every path the caller's dict ends as
the post-phase `assignments2` (or untouched on the early returns).  `none`
means the fuel ran out. -/
def dpll : Nat → Clauses → Assignment → Bool → Bool →
    Option (DpllResult × Assignment)
  | 0, _, _, _, _ => none
  | fuel + 1, clauses0, assignments0, use_unit, use_pure =>
    if clauses0.isEmpty then some (DpllResult.sat assignments0, assignments0)
    else if clauses0.any List.isEmpty then
      some (DpllResult.unsat, assignments0)
    else if use_unit && unitContradiction (find_unit_clauses clauses0) then
      some (DpllResult.unsat, assignments0)
    else
      match simpPhases fuel clauses0 assignments0 use_unit use_pure with
      | none => none
      | some (clauses2, assignments2) =>
        if clauses2.isEmpty then
          some (DpllResult.sat assignments2, assignments2)
        else if clauses2.any List.isEmpty then
          some (DpllResult.unsat, assignments2)
        else
          match findBranchLit clauses2 assignments2 with
          | none => some (DpllResult.sat assignments2, assignments2)
          | some literal =>
            match dpll fuel (assign clauses2 literal true)
                (dictSet assignments2 literal true) use_unit use_pure with
            | none => none
            | some (DpllResult.sat a, _) =>
              some (DpllResult.sat a, assignments2)
            | some (DpllResult.unsat, _) =>
              match dpll fuel (assign clauses2 literal false)
                  (dictSet assignments2 literal false) use_unit use_pure with
              | none => none
              | some (r, _) => some (r, assignments2)

/-- dpll.py lines 106-109: strip one leading `~` to get the variable name
of a literal. -/
def stripVar (l : Literal) : Literal :=
  if startsTilde l then l.drop 1 else l

/-- dpll.py line 104, `set(literal for clause in clauses for literal in
clause)`: every literal of the original formula, deduplicated.  CPython's
set iteration order is unspecified; first-occurrence order is the modelling
choice (the printed result is sorted by key, so no observable output
depends on it). -/
def all_literals (clauses : Clauses) : List Literal :=
  clauses.foldl
    (fun acc clause =>
      clause.foldl
        (fun acc l => if acc.contains l then acc else acc ++ [l]) acc)
    []

/-- dpll.py lines 104-111: the finalization loop of `main`, giving the
value `False` to every stripped variable such that neither the variable nor
its negation-marked form is already a key of the result dict. -/
def finalize (clauses : Clauses) (result : Assignment) : Assignment :=
  (all_literals clauses).foldl
    (fun res l =>
      let var := stripVar l
      if !(dictMem res var) && !(dictMem res (negLit var)) then
        dictSet res var false
      else res)
    result

/-- dpll.py lines 101-114: `main` without the I/O — run `dpll` on the
parsed clauses with an empty dict, and finalize the result when the verdict
is satisfiable.  `none` stands for the unsatisfiable verdict (or exhausted
fuel). -/
def solve (fuel : Nat) (clauses : Clauses) (use_unit use_pure : Bool) :
    Option Assignment :=
  match dpll fuel clauses [] use_unit use_pure with
  | some (DpllResult.sat r, _) => some (finalize clauses r)
  | some (DpllResult.unsat, _) => none
  | none => none

/-- Specification-side semantics (spec section 8, soundness): the truth
value of a literal under an assignment — negation of the variable's value
when the literal carries the negation marker. -/
def litValue (a : Assignment) (l : Literal) : Bool :=
  if startsTilde l then !(dictGetD a (l.drop 1) false) else dictGetD a l false

/-- Specification-side semantics: a clause is true when at least one of its
literals evaluates to true. -/
def clauseSat (a : Assignment) (c : Clause) : Bool :=
  c.any (litValue a)

/-- Specification-side semantics: a formula is true when every clause is. -/
def formulaSat (a : Assignment) (f : Clauses) : Bool :=
  f.all (clauseSat a)

/-- C1: the spec claims soundness — every assignment returned with a
satisfiable verdict makes every original clause true — for every toggle
combination.  The code is unsound: on the clauses {x,y},{~x},{~y} with both
heuristics enabled (the default configuration) unit propagation assigns
y := False and then x := False, `assign` silently drops the emptied clause
{x}, and the solver answers satisfiable with x=F, y=F, which falsifies the
clause {x,y}. -/
theorem C1_soundness_bug :
    dpll 5 [[['x'], ['y']], [['~', 'x']], [['~', 'y']]] [] true true =
      some (DpllResult.sat [(['y'], false), (['x'], false)],
        [(['y'], false), (['x'], false)]) ∧
    formulaSat [(['y'], false), (['x'], false)]
      [[['x'], ['y']], [['~', 'x']], [['~', 'y']]] = false := by
  exact ⟨rfl, rfl⟩

/-- C2: the spec claims every unsatisfiable formula gets the failure signal
under each of the four toggle combinations and that all combinations agree
on the verdict.  The clauses {x},{~x} are unsatisfiable under every
assignment, and with unit propagation enabled the code does answer
unsatisfiable, but with both heuristics disabled it returns the spurious
assignment x=T — the verdicts disagree. -/
theorem C2_completeness_bug :
    (∀ a : Assignment, formulaSat a [[['x']], [['~', 'x']]] = false) ∧
    dpll 5 [[['x']], [['~', 'x']]] [] true true =
      some (DpllResult.unsat, []) ∧
    dpll 5 [[['x']], [['~', 'x']]] [] false false =
      some (DpllResult.sat [(['x'], true)], []) := by
  refine ⟨fun a => ?_, rfl, rfl⟩
  have hdef : formulaSat a [[['x']], [['~', 'x']]]
      = ((dictGetD a ['x'] false || false) &&
         (((!(dictGetD a ['x'] false)) || false) && true)) := rfl
  rw [hdef]
  cases dictGetD a ['x'] false <;> rfl

/-- C3: the spec claims a clause that becomes empty under `assign` is still
emitted so that the caller's any-empty-clause test can fire.  The code
filters emptied clauses out: assigning x := False to the clause set { {x} }
returns the empty clause list, and no empty clause is present for the
caller to detect. -/
theorem C3_empty_clause_dropped :
    assign [[['x']]] ['x'] false = [] ∧
    (assign [[['x']]] ['x'] false).any List.isEmpty = false := by
  exact ⟨rfl, rfl⟩

/-- C4: the spec claims a variable with a non-zero net signed count is
assigned the truth value of the count's sign (negative count → False).  On
the single clause {~x,~y} both x and y have net count −1, yet
`find_pure_literals` returns the bare variable names without the sign and
`dpll` assigns True to both, even reporting this falsifying assignment as
satisfiable. -/
theorem C4_pure_polarity_bug :
    tally [[['~', 'x'], ['~', 'y']]] = [(['x'], -1), (['y'], -1)] ∧
    find_pure_literals [[['~', 'x'], ['~', 'y']]] = [['x'], ['y']] ∧
    dpll 5 [[['~', 'x'], ['~', 'y']]] [] true true =
      some (DpllResult.sat [(['x'], true), (['y'], true)],
        [(['x'], true), (['y'], true)]) := by
  exact ⟨rfl, rfl, rfl⟩

/-- C5: with unit propagation enabled, whenever the unit-literal set of the
clause list contains some literal together with its negation, `dpll`
reports the failure signal immediately: the result is the unsatisfiable
verdict and the caller's assignment dict is left untouched, so no
propagation was attempted. -/
theorem C5_unit_contradiction (fuel : Nat) (clauses : Clauses)
    (assignments : Assignment) (p : Bool) (v : Literal)
    (h1 : v ∈ find_unit_clauses clauses)
    (h2 : negLit v ∈ find_unit_clauses clauses) :
    dpll (fuel + 1) clauses assignments true p =
      some (DpllResult.unsat, assignments) := by
  have hne : clauses.isEmpty = false := by
    cases clauses with
    | nil => simp [find_unit_clauses] at h1
    | cons c cs => rfl
  have hcontra : unitContradiction (find_unit_clauses clauses) = true := by
    unfold unitContradiction
    rw [List.any_eq_true]
    exact ⟨v, h1, by rw [decide_eq_true h2, Bool.or_true]⟩
  cases hE : clauses.any List.isEmpty <;>
    simp [dpll, hne, hE, hcontra]

/-- C5 witness: the clause set { {x}, {~x} } instantiates the theorem. -/
theorem C5_unit_contradiction_witness :
    dpll 1 [[['x']], [['~', 'x']]] [] true true =
      some (DpllResult.unsat, []) :=
  C5_unit_contradiction 0 [[['x']], [['~', 'x']]] [] true ['x']
    (by decide) (by decide)

/-- C6: the spec claims the finalized result has an entry for every
variable of the original formula, defaulting untouched variables to False.
On the clauses {~x},{x,y} with both heuristics disabled, branching records
the raw literal `~x` as a dict key; finalization sees `~x` in the result
and skips the variable x, so the final assignment keeps no entry for x at
all even though x occurs in the formula. -/
theorem C6_totality_bug :
    solve 5 [[['~', 'x']], [['x'], ['y']]] false false =
      some [(['~', 'x'], true), (['y'], true)] ∧
    (all_literals [[['~', 'x']], [['x'], ['y']]]).map stripVar =
      [['x'], ['x'], ['y']] ∧
    dictMem [(['~', 'x'], true), (['y'], true)] ['x'] = false := by
  exact ⟨rfl, rfl, rfl⟩

/-- C7: whenever neither terminal condition holds on entry nor after the
simplification phases and a branch literal is found (the first literal,
scanning clauses in order, whose variable is unassigned in either
polarity), `dpll` tries value True on a fresh copy of the post-phase state;
a satisfiable result is returned as is, otherwise value False is tried on
another fresh copy of the same pre-True state, and if both fail the call
fails.  The caller's dict ends at the post-phase content in every case. -/
theorem C7_branching (fuel : Nat) (clauses : Clauses)
    (assignments : Assignment) (u p : Bool) (clauses2 : Clauses)
    (assignments2 : Assignment) (lit : Literal)
    (h0 : clauses.isEmpty = false)
    (h1 : clauses.any List.isEmpty = false)
    (h2 : (u && unitContradiction (find_unit_clauses clauses)) = false)
    (h3 : simpPhases fuel clauses assignments u p = some (clauses2, assignments2))
    (h4 : clauses2.isEmpty = false)
    (h5 : clauses2.any List.isEmpty = false)
    (h6 : findBranchLit clauses2 assignments2 = some lit) :
    dpll (fuel + 1) clauses assignments u p =
      match dpll fuel (assign clauses2 lit true)
          (dictSet assignments2 lit true) u p with
      | none => none
      | some (DpllResult.sat a, _) => some (DpllResult.sat a, assignments2)
      | some (DpllResult.unsat, _) =>
        match dpll fuel (assign clauses2 lit false)
            (dictSet assignments2 lit false) u p with
        | none => none
        | some (r, _) => some (r, assignments2) := by
  cases hT : dpll fuel (assign clauses2 lit true)
      (dictSet assignments2 lit true) u p with
  | none => simp [dpll, h0, h1, h2, h3, h4, h5, h6, hT]
  | some pr =>
    obtain ⟨r1, a1⟩ := pr
    cases r1 with
    | sat a => simp [dpll, h0, h1, h2, h3, h4, h5, h6, hT]
    | unsat =>
      cases hF : dpll fuel (assign clauses2 lit false)
          (dictSet assignments2 lit false) u p with
      | none => simp [dpll, h0, h1, h2, h3, h4, h5, h6, hT, hF]
      | some pr2 =>
        obtain ⟨r2, a2⟩ := pr2
        simp [dpll, h0, h1, h2, h3, h4, h5, h6, hT, hF]

/-- C7 witness: branching on the single clause { {x} } with both heuristics
disabled instantiates the theorem. -/
theorem C7_branching_witness :
    dpll 2 [[['x']]] [] false false =
      match dpll 1 (assign [[['x']]] ['x'] true)
          (dictSet [] ['x'] true) false false with
      | none => none
      | some (DpllResult.sat a, _) => some (DpllResult.sat a, ([] : Assignment))
      | some (DpllResult.unsat, _) =>
        match dpll 1 (assign [[['x']]] ['x'] false)
            (dictSet [] ['x'] false) false false with
        | none => none
        | some (r, _) => some (r, ([] : Assignment)) :=
  C7_branching 1 [[['x']]] [] false false [[['x']]] [] ['x']
    (by decide) (by decide) (by decide) (by decide) (by decide) (by decide)
    (by decide)

/-- C8 counterexample: the claim quantifies over every clause sequence, but
on the sequence holding one empty clause — in which the variable x appears
in neither polarity — `assign` does not return the input: it drops the
empty clause. -/
theorem C8_counterexample :
    (([([] : Clause)] : Clauses).all fun c =>
      !(c.contains ['x']) && !(c.contains (negLit ['x']))) = true ∧
    assign [([] : Clause)] ['x'] true ≠ [([] : Clause)] := by
  exact ⟨rfl, by decide⟩

/-- C8 (amended): on a clause sequence all of whose clauses are non-empty,
if the variable appears in neither polarity in any clause then `assign`
returns the sequence unchanged — no clause is dropped, added or changed. -/
theorem C8_idempotent (clauses : Clauses) (lit : Literal) (value : Bool)
    (hne : ∀ c ∈ clauses, c ≠ [])
    (habs : ∀ c ∈ clauses, lit ∉ c ∧ negLit lit ∉ c) :
    assign clauses lit value = clauses := by
  induction clauses with
  | nil => rfl
  | cons c cs ih =>
    have hc := habs c (List.mem_cons_self c cs)
    have hcont1 : c.contains lit = false := by
      cases h : c.contains lit
      · rfl
      · exact absurd (List.mem_of_elem_eq_true h) hc.1
    have hcont2 : c.contains (negLit lit) = false := by
      cases h : c.contains (negLit lit)
      · rfl
      · exact absurd (List.mem_of_elem_eq_true h) hc.2
    have hfilter : (c.filter fun l =>
        !(l == lit) && !(l == negLit lit)) = c := by
      apply List.filter_eq_self.mpr
      intro a ha
      have e1 : a ≠ lit := fun e => hc.1 (e ▸ ha)
      have e2 : a ≠ negLit lit := fun e => hc.2 (e ▸ ha)
      simp [e1, e2]
    have hcne : c.isEmpty = false := by
      cases c with
      | nil => exact absurd rfl (hne [] (List.mem_cons_self _ _))
      | cons a as => rfl
    have ihr : assign cs lit value = cs :=
      ih (fun d hd => hne d (List.mem_cons_of_mem _ hd))
        (fun d hd => habs d (List.mem_cons_of_mem _ hd))
    show assign (c :: cs) lit value = c :: cs
    simp [assign, hcont1, hcont2, hfilter, hcne, ihr]
    exact ⟨fun h => absurd h hc.1, fun h => absurd h hc.2⟩

/-- C8 witness: the clause sequence { {y} } with the absent variable x
instantiates the amended theorem. -/
theorem C8_idempotent_witness :
    assign [[['y']]] ['x'] true = [[['y']]] :=
  C8_idempotent [[['y']]] ['x'] true (by decide) (by decide)

/-- C10: `dpll` writes into the dict its caller passed in: on the clauses
{u},{a,b},{a,~b},{~a,b},{~a,~b} with unit propagation enabled, the call
fails (both branches on `a` hit a unit contradiction), yet the caller's
initially empty dict ends holding the entry u := True written by the unit
phase — the branching phase alone worked on fresh copies. -/
theorem C10_arg_mutated :
    dpll 5 [[['u']], [['a'], ['b']], [['a'], ['~', 'b']],
        [['~', 'a'], ['b']], [['~', 'a'], ['~', 'b']]] [] true false =
      some (DpllResult.unsat, [(['u'], true)]) ∧
    ([(['u'], true)] : Assignment) ≠ [] := by
  exact ⟨rfl, by decide⟩
